import Mathlib

/-!
Verification development for the ColorPick application (src/ColorPick.py).

The program keeps a bounded, persisted history of color samples captured at
the mouse position.  We shallowly embed the state and the operations of
`ColorLoggerApp` and `KeyListenerThread`:

* JSON documents are modelled by the inductive `JVal`; the persisted file by
  `FileState` (missing, syntactically malformed, or a parsed document).
* A color sample (the Python dict built in `capture_color`) is the structure
  `ColorRecord`.
* The mutable attributes of the running application (history list, the file
  at the save path, label texts, clipboard, message boxes shown, hotkey
  registrations) form `AppState`.
* Effectful inputs of the source (mouse position, screen pixel, dialog
  results, whether the OS accepts a hotkey spec, whether the file write
  succeeds) are passed as explicit parameters; a Python exception escaping a
  handler is the `Option PyErr` component of a result.
-/

/-- Upper bound on the number of stored records (`MAX_COLOR_RECORDS = 20`). -/
def MAX_COLOR_RECORDS : Nat := 20

/-- Default hotkey spec (`DEFAULT_HOTKEY = 'ctrl+shift+c'`). -/
def DEFAULT_HOTKEY : String := "ctrl+shift+c"

/-- A color sample: the dict `color_data` built in
`KeyListenerThread.capture_color` with keys x, y, r, g, b, hex. -/
structure ColorRecord where
  x : Int
  y : Int
  r : Nat
  g : Nat
  b : Nat
  hex : String
deriving DecidableEq, Repr

/-- A JSON value, as produced by Python's json module: integers, strings,
booleans, objects (ordered field lists with distinct keys) and arrays. -/
inductive JVal where
  | jint (n : Int)
  | jstr (s : String)
  | jbool (b : Bool)
  | jobj (fields : List (String × JVal))
  | jarr (items : List JVal)

/-- The file at `get_save_path()`: absent, present but not parseable as JSON
(so that `json.load` raises `json.JSONDecodeError`), or parseable with the
given document as the parse result. -/
inductive FileState where
  | missing
  | unparseable
  | parsed (doc : JVal)

/-- A Python exception escaping the code under consideration. -/
inductive PyErr where
  | ioError
  | valueError
deriving DecidableEq, Repr

/-- Serialization of one record by `json.dump`: the dict becomes a JSON
object with its six fields in insertion order. -/
def encodeRecord (rec : ColorRecord) : List (String × JVal) :=
  [("x", JVal.jint rec.x), ("y", JVal.jint rec.y),
   ("r", JVal.jint (rec.r : Int)), ("g", JVal.jint (rec.g : Int)),
   ("b", JVal.jint (rec.b : Int)), ("hex", JVal.jstr rec.hex)]

/-- Python dict field access on a JSON object (keys are unique, so the first
match is the value). -/
def lookupField (fields : List (String × JVal)) (key : String) : Option JVal :=
  match fields with
  | [] => none
  | (k, v) :: rest => if k = key then some v else lookupField rest key

def asInt : Option JVal → Option Int
  | some (JVal.jint n) => some n
  | _ => none

def asStr : Option JVal → Option String
  | some (JVal.jstr s) => some s
  | _ => none

/-- Representation relation between a persisted JSON object and a color
sample: the object denotes the record whose six fields it carries.  (The
source keeps loaded records as dicts and reads these exact keys, e.g.
`record['hex']` in `copy_hex_color` and `record['x']` in
`ColorItemWidget`.) -/
def decodeRecord : JVal → Option ColorRecord
  | JVal.jobj fields =>
    match asInt (lookupField fields "x"), asInt (lookupField fields "y"),
          asInt (lookupField fields "r"), asInt (lookupField fields "g"),
          asInt (lookupField fields "b"), asStr (lookupField fields "hex") with
    | some x, some y, some r, some g, some b, some hex =>
      some { x := x, y := y, r := r.toNat, g := g.toNat, b := b.toNat, hex := hex }
    | _, _, _, _, _, _ => none
  | _ => none

def decodeRecords : List JVal → Option (List ColorRecord)
  | [] => some []
  | v :: rest =>
    match decodeRecord v, decodeRecords rest with
    | some rec, some recs => some (rec :: recs)
    | _, _ => none

/-- Denotation of a whole persisted document as an ordered record list. -/
def decodeHistory : JVal → Option (List ColorRecord)
  | JVal.jarr items => decodeRecords items
  | _ => none

/-- `ColorLoggerApp.save_data`: `json.dump(self.color_history, file)` writes
the full ordered history as a JSON array of objects; the result is the new
state of the file at the save path. -/
def save_data (color_history : List ColorRecord) : FileState :=
  FileState.parsed (JVal.jarr (color_history.map (fun rec => JVal.jobj (encodeRecord rec))))

/-- `ColorLoggerApp.load_data`: returns the in-memory value that becomes
`self.color_history`, paired with whether the warning `print` ran.
Missing file: return `[]`, no warning.  `json.JSONDecodeError`: print the
warning, return `[]`.  Otherwise the `json.load` result is returned
unchanged, whatever JSON value it is — only `JSONDecodeError` is caught. -/
def load_data : FileState → JVal × Bool
  | FileState.missing => (JVal.jarr [], false)
  | FileState.unparseable => (JVal.jarr [], true)
  | FileState.parsed doc => (doc, false)

/-- Number of records in the file as written (0 for anything but a parsed
array). -/
def fileRecordCount : FileState → Nat
  | FileState.parsed (JVal.jarr items) => items.length
  | _ => 0

/-- The history mutation performed by `ColorLoggerApp.add_color_record`:
`pop(0)` when `len(self.color_history) >= MAX_COLOR_RECORDS`, then
`append(color_record)`. -/
def pushRecord (h : List ColorRecord) (rec : ColorRecord) : List ColorRecord :=
  (if MAX_COLOR_RECORDS ≤ h.length then h.drop 1 else h) ++ [rec]

/-- The mutable state of the running application that the embedded
operations touch.  `registeredHotkeys` models the `keyboard` module's
active registrations, `listenerErr` an exception raised (uncaught) on the
listener thread, `messages` the texts of `QMessageBox` dialogs shown,
`clipboard` the `pyperclip` clipboard, `file` the file at the save path. -/
structure AppState where
  hotkey : String
  color_history : List ColorRecord
  file : FileState
  registeredHotkeys : List String
  listenerErr : Option PyErr
  livePosText : String
  liveRgbText : String
  liveHexText : String
  livePreviewStyle : String
  clipboard : Option String
  messages : List String

/-- Application state right after `__init__` when `load_data` produced the
history `h` and the file at the save path is `f`; label texts are the
`init_ui` defaults and the default hotkey is registered. -/
def startupState (h : List ColorRecord) (f : FileState) : AppState :=
  { hotkey := DEFAULT_HOTKEY
    color_history := h
    file := f
    registeredHotkeys := [DEFAULT_HOTKEY]
    listenerErr := none
    livePosText := "X: 0 Y: 0"
    liveRgbText := "RGB: 0 , 0 , 0"
    liveHexText := "HEX: #000000"
    livePreviewStyle := "background-color: #000000; border: 1px solid black;"
    clipboard := none
    messages := [] }

/-- Startup state with an empty history log (fresh start: missing file). -/
def initialState : AppState :=
  startupState [] FileState.missing

/-- `ColorLoggerApp.add_color_record`.  The in-place `pop`/`append` on
`self.color_history` happen first; then `save_data` runs.  `writeOk` says
whether opening the file for writing succeeds; on failure the `OSError`
escapes the method uncaught (second component), after the in-memory
mutation and before any dialog, and the previous file is left as it was. -/
def add_color_record (s : AppState) (rec : ColorRecord) (writeOk : Bool) :
    AppState × Option PyErr :=
  let h2 := pushRecord s.color_history rec
  if writeOk then
    ({ s with color_history := h2, file := save_data h2 }, none)
  else
    ({ s with color_history := h2 }, some PyErr.ioError)

/-- `ColorLoggerApp.clear_history`: `self.color_history = []`, then
`save_data` (same failure convention as in `add_color_record`). -/
def clear_history (s : AppState) (writeOk : Bool) : AppState × Option PyErr :=
  if writeOk then
    ({ s with color_history := [], file := save_data [] }, none)
  else
    ({ s with color_history := [] }, some PyErr.ioError)

/-- Red component of a QRgb pixel value, as `QColor(rgb).red()` extracts it
from the 32-bit value returned by `QImage.pixel`. -/
def qRed (pix : Nat) : Nat := pix / 65536 % 256

/-- Green component of a QRgb pixel value (`QColor(rgb).green()`). -/
def qGreen (pix : Nat) : Nat := pix / 256 % 256

/-- Blue component of a QRgb pixel value (`QColor(rgb).blue()`). -/
def qBlue (pix : Nat) : Nat := pix % 256

def lowerHexDigit : Nat → Char
  | 0 => '0' | 1 => '1' | 2 => '2' | 3 => '3' | 4 => '4'
  | 5 => '5' | 6 => '6' | 7 => '7' | 8 => '8' | 9 => '9'
  | 10 => 'a' | 11 => 'b' | 12 => 'c' | 13 => 'd' | 14 => 'e' | _ => 'f'

def upperHexDigit : Nat → Char
  | 0 => '0' | 1 => '1' | 2 => '2' | 3 => '3' | 4 => '4'
  | 5 => '5' | 6 => '6' | 7 => '7' | 8 => '8' | 9 => '9'
  | 10 => 'A' | 11 => 'B' | 12 => 'C' | 13 => 'D' | 14 => 'E' | _ => 'F'

/-- Two lowercase hex digits of a byte. -/
def hexByteChars (n : Nat) : List Char :=
  [lowerHexDigit (n / 16), lowerHexDigit (n % 16)]

/-- `QColor.name()`: the lowercase string "#rrggbb" of the color's
components (alpha is not included in the default name format). -/
def qcolorName (r g b : Nat) : List Char :=
  '#' :: (hexByteChars r ++ hexByteChars g ++ hexByteChars b)

/-- Python's `str.upper()` on an ASCII string, as a list of characters. -/
def pyUpper (s : List Char) : List Char := s.map Char.toUpper

/-- Modelled from the spec: the canonical uppercase `#RRGGBB` encoding of
an (r, g, b) triple, to be compared with what the source computes via
`color.name().upper()`. -/
def canonicalHexUpper (r g b : Nat) : String :=
  String.mk ('#' :: ([upperHexDigit (r / 16), upperHexDigit (r % 16)] ++
    [upperHexDigit (g / 16), upperHexDigit (g % 16)] ++
    [upperHexDigit (b / 16), upperHexDigit (b % 16)]))

/-- The dict `color_data` built in `KeyListenerThread.capture_color` from
the mouse position (x, y) and the grabbed 1x1 pixel: components via
`QColor`, hex via `color.name().upper()`. -/
def color_data (x y : Int) (pix : Nat) : ColorRecord :=
  { x := x, y := y, r := qRed pix, g := qGreen pix, b := qBlue pix,
    hex := String.mk (pyUpper (qcolorName (qRed pix) (qGreen pix) (qBlue pix))) }

/-- `KeyListenerThread.capture_color`: reads the mouse position and, when a
primary screen exists (`if screen:`), grabs the pixel there and emits the
sample on `colorCaptured`; with no screen nothing is emitted. -/
def capture_color (x y : Int) (screen : Option Nat) : Option ColorRecord :=
  screen.map (fun pix => color_data x y pix)

/-- Python format spec `:<n` — left-justify in a field of width n. -/
def padRight (s : String) (w : Nat) : String :=
  s ++ String.mk (List.replicate (w - s.length) ' ')

/-- `ColorLoggerApp.update_live_color_display`: on each timer tick, reads
the mouse position and (when a primary screen exists) the pixel there, and
rewrites the four live-preview labels.  It touches nothing else: no history
mutation, no `save_data`. -/
def update_live_color_display (s : AppState) (x y : Int) (screen : Option Nat) :
    AppState :=
  match screen with
  | none => s
  | some pix =>
    let red := qRed pix
    let green := qGreen pix
    let blue := qBlue pix
    let hex_color := String.mk (pyUpper (qcolorName red green blue))
    { s with
      livePosText := "X: " ++ padRight (toString x) 8 ++ " Y: " ++ toString y
      liveRgbText := "RGB: " ++ padRight (toString red) 3 ++ ", " ++
        padRight (toString green) 3 ++ ", " ++ padRight (toString blue) 3
      liveHexText := "HEX: " ++ hex_color
      livePreviewStyle := "background-color: " ++ hex_color ++ "; border: 1px solid black;" }

/-- Text of the copy-confirmation dialog in `copy_hex_color`. -/
def copiedMsg (hex : String) : String := "已複製 HEX 顏色碼: " ++ hex

/-- `ColorLoggerApp.copy_hex_color`: `row` is `self.color_list.row(list_item)`
(an int, -1 when the item is not found).  Under the guard
`0 <= index < len(self.color_history)` the entry's hex is copied to the
clipboard and a confirmation dialog shown; otherwise nothing happens. -/
def copy_hex_color (s : AppState) (row : Int) : AppState :=
  if h : 0 ≤ row ∧ row < (s.color_history.length : Int) then
    let hex := (s.color_history.get ⟨row.toNat, by omega⟩).hex
    { s with clipboard := some hex, messages := s.messages ++ [copiedMsg hex] }
  else s

/-- Text of the success dialog in `change_hotkey`. -/
def hotkeyChangedMsg (spec : String) : String := "快捷鍵已更改為: " ++ spec

/-- `ColorLoggerApp.change_hotkey` together with the `run` of the freshly
started `KeyListenerThread`.  `valid` is the OS-primitive oracle: whether
`keyboard.add_hotkey` accepts the spec (it raises `ValueError` otherwise).
When the dialog is confirmed with a nonempty spec: `self.hotkey` and the
listener's spec are overwritten, `keyboard.unhook_all_hotkeys()` empties the
registrations, and a new listener thread is started.  Neither
`unhook_all_hotkeys` nor `QThread.start` raises for any input, so the
`except` branch of the source never runs: the success dialog is always
shown.  `keyboard.add_hotkey(self.hotkey, ...)` executes afterwards inside
`KeyListenerThread.run` on the new thread; a `ValueError` from a malformed
spec is raised there, uncaught (`listenerErr`), leaving no registration. -/
def change_hotkey (valid : String → Bool) (s : AppState) (dialogOk : Bool)
    (newSpec : String) : AppState :=
  if dialogOk = true ∧ newSpec ≠ "" then
    { s with hotkey := newSpec,
             registeredHotkeys := if valid newSpec then [newSpec] else [],
             listenerErr := if valid newSpec then none else some PyErr.valueError,
             messages := s.messages ++ [hotkeyChangedMsg newSpec] }
  else s

/-- A press of hotkey `k` triggers a capture exactly when `k` is among the
active `keyboard` registrations. -/
def hotkey_triggers (s : AppState) (k : String) : Bool :=
  s.registeredHotkeys.contains k

/-- A mutation of the history store: a successful capture delivered to
`add_color_record`, or a click of the clear button. -/
inductive Op where
  | append (rec : ColorRecord)
  | clear
deriving DecidableEq

/-- Run one operation on the consumer context with the file write
succeeding. -/
def applyOp (s : AppState) : Op → AppState
  | Op.append rec => (add_color_record s rec true).1
  | Op.clear => (clear_history s true).1

def applyOps (s : AppState) (ops : List Op) : AppState :=
  ops.foldl applyOp s

/-- State after a sequence of successful captures delivered to
`add_color_record`, starting from an empty history log. -/
def captureAll (samples : List ColorRecord) : AppState :=
  samples.foldl (fun s rec => (add_color_record s rec true).1) initialState

/-- State after a sequence of live-poll ticks, each tick given its mouse
position and (optional) screen pixel. -/
def applyLiveTicks (s : AppState) (ticks : List (Int × Int × Option Nat)) : AppState :=
  ticks.foldl (fun t e => update_live_color_display t e.1 e.2.1 e.2.2) s

theorem max_records_eq : MAX_COLOR_RECORDS = 20 := rfl

theorem pushRecord_length_le (h : List ColorRecord) (rec : ColorRecord)
    (hh : h.length ≤ MAX_COLOR_RECORDS) :
    (pushRecord h rec).length ≤ MAX_COLOR_RECORDS := by
  unfold pushRecord
  split
  · simp only [List.length_append, List.length_drop, List.length_cons,
      List.length_nil]
    have h20 := max_records_eq
    omega
  · simp only [List.length_append, List.length_cons, List.length_nil]
    omega

theorem foldl_pushRecord (ss : List ColorRecord) :
    ∀ h : List ColorRecord, h.length ≤ MAX_COLOR_RECORDS →
      List.foldl pushRecord h ss =
        (h ++ ss).drop (h.length + ss.length - MAX_COLOR_RECORDS) := by
  induction ss with
  | nil =>
    intro h hh
    simp [Nat.sub_eq_zero_of_le hh]
  | cons r ss ih =>
    intro h hh
    rw [List.foldl_cons]
    by_cases hcap : MAX_COLOR_RECORDS ≤ h.length
    · have hlen : h.length = MAX_COLOR_RECORDS := Nat.le_antisymm hh hcap
      obtain ⟨a, t, rfl⟩ : ∃ a t, h = a :: t := by
        cases h with
        | nil =>
          rw [List.length_nil] at hlen
          exact absurd hlen.symm (by decide)
        | cons a t => exact ⟨a, t, rfl⟩
      have hpush : pushRecord (a :: t) r = t ++ [r] := by
        unfold pushRecord
        rw [if_pos hcap]
        rfl
      have hlin : (t ++ [r]).length ≤ MAX_COLOR_RECORDS := by
        simp only [List.length_append, List.length_cons, List.length_nil]
        simp only [List.length_cons] at hlen
        omega
      rw [hpush, ih _ hlin]
      have hidx1 : (t ++ [r]).length + ss.length - MAX_COLOR_RECORDS = ss.length := by
        simp only [List.length_append, List.length_cons, List.length_nil]
        simp only [List.length_cons] at hlen
        omega
      have hidx2 : (a :: t).length + (r :: ss).length - MAX_COLOR_RECORDS
          = ss.length + 1 := by
        simp only [List.length_cons] at hlen ⊢
        omega
      rw [hidx1, hidx2, List.append_assoc, List.singleton_append,
        List.cons_append, List.drop_succ_cons]
    · have hlt : h.length < MAX_COLOR_RECORDS := Nat.lt_of_not_le hcap
      have hpush : pushRecord h r = h ++ [r] := by
        unfold pushRecord
        rw [if_neg hcap]
      have hlin : (h ++ [r]).length ≤ MAX_COLOR_RECORDS := by
        simp only [List.length_append, List.length_cons, List.length_nil]
        omega
      rw [hpush, ih _ hlin]
      have hidx : (h ++ [r]).length + ss.length - MAX_COLOR_RECORDS
          = h.length + (r :: ss).length - MAX_COLOR_RECORDS := by
        simp only [List.length_append, List.length_cons, List.length_nil]
        omega
      rw [hidx, List.append_assoc, List.singleton_append]

theorem captureAll_history (samples : List ColorRecord) :
    (captureAll samples).color_history = List.foldl pushRecord [] samples := by
  suffices hgen : ∀ (ss : List ColorRecord) (s : AppState),
      (List.foldl (fun t rec => (add_color_record t rec true).1) s ss).color_history
        = List.foldl pushRecord s.color_history ss by
    exact hgen samples initialState
  intro ss
  induction ss with
  | nil => intro s; rfl
  | cons r ss ih =>
    intro s
    rw [List.foldl_cons, List.foldl_cons, ih]
    rfl

/-- C1: starting from an empty history log, a sequence of N successful
captures delivered to `add_color_record` leaves the log with exactly the
last `min(N, 20)` samples in capture order (FIFO eviction); in particular a
sequence of 21 samples leaves the log equal to the sequence with its first
element evicted. -/
theorem capture_fifo_law :
    ∀ samples : List ColorRecord,
      ((captureAll samples).color_history =
          samples.drop (samples.length - MAX_COLOR_RECORDS) ∧
        (captureAll samples).color_history.length =
          min samples.length MAX_COLOR_RECORDS) ∧
      (samples.length = 21 →
        (captureAll samples).color_history = samples.drop 1) := by
  intro samples
  have hmain : (captureAll samples).color_history
      = samples.drop (samples.length - MAX_COLOR_RECORDS) := by
    rw [captureAll_history, foldl_pushRecord samples [] (by simp)]
    simp
  constructor
  · refine ⟨hmain, ?_⟩
    rw [hmain, List.length_drop]
    have h20 := max_records_eq
    omega
  · intro h21
    rw [hmain, h21, max_records_eq]

/-- A sequence of 21 pairwise distinct samples (distinct x coordinates). -/
def samples21 : List ColorRecord :=
  (List.range 21).map (fun i =>
    { x := (i : Int), y := 0, r := 0, g := 0, b := 0, hex := "#000000" })

/-- Witness for C1: the 21-capture scenario at a concrete list of 21
distinct samples. -/
theorem capture_fifo_law_witness :
    samples21.length = 21 ∧
      (captureAll samples21).color_history = samples21.drop 1 :=
  ⟨by decide, (capture_fifo_law samples21).2 (by decide)⟩

theorem decodeRecord_encode (rec : ColorRecord) :
    decodeRecord (JVal.jobj (encodeRecord rec)) = some rec := rfl

theorem decodeRecords_encode (h : List ColorRecord) :
    decodeRecords (h.map (fun rec => JVal.jobj (encodeRecord rec))) = some h := by
  induction h with
  | nil => rfl
  | cons rec h ih =>
    rw [List.map_cons]
    simp [decodeRecords, decodeRecord_encode rec, ih]

theorem applyOps_cons (s : AppState) (o : Op) (ops : List Op) :
    applyOps s (o :: ops) = applyOps (applyOp s o) ops := rfl

theorem applyOps_length_le (ops : List Op) :
    ∀ s : AppState, s.color_history.length ≤ MAX_COLOR_RECORDS →
      (applyOps s ops).color_history.length ≤ MAX_COLOR_RECORDS := by
  induction ops with
  | nil => intro s hs; exact hs
  | cons o ops ih =>
    intro s hs
    rw [applyOps_cons]
    apply ih
    cases o with
    | append rec => exact pushRecord_length_le s.color_history rec hs
    | clear => exact Nat.zero_le _

theorem applyOps_file_saved (ops : List Op) :
    ∀ s : AppState, ops ≠ [] →
      (applyOps s ops).file = save_data (applyOps s ops).color_history := by
  induction ops with
  | nil => intro s hne; exact absurd rfl hne
  | cons o ops ih =>
    intro s _
    cases ops with
    | nil => cases o <;> rfl
    | cons o2 ops2 =>
      rw [applyOps_cons]
      exact ih _ (by simp)

theorem fileRecordCount_save (h : List ColorRecord) :
    fileRecordCount (save_data h) = h.length := by
  simp [fileRecordCount, save_data]

/-- A fixed sample used in concrete scenarios. -/
def rec0 : ColorRecord := { x := 0, y := 0, r := 0, g := 0, b := 0, hex := "#000000" }

/-- A persisted file holding 21 records. -/
def oversizedHistory : List ColorRecord := List.replicate 21 rec0

def oversizedFile : FileState := save_data oversizedHistory

/-- Counterexample to C2: a persisted file with 21 records loads verbatim
(no warning, no truncation), so the in-memory log starts with length
21 > 20; one further `add_color_record` pops only one element, leaving
length 21 again, and the `save_data` it triggers writes a 21-record file. -/
theorem oversized_load_breaks_bound :
    decodeHistory (load_data oversizedFile).1 = some oversizedHistory
    ∧ (load_data oversizedFile).2 = false
    ∧ ¬ (oversizedHistory.length ≤ MAX_COLOR_RECORDS)
    ∧ (pushRecord oversizedHistory rec0).length = 21
    ∧ fileRecordCount (save_data (pushRecord oversizedHistory rec0)) = 21 := by
  refine ⟨decodeRecords_encode oversizedHistory, rfl, by decide, by decide, ?_⟩
  rw [fileRecordCount_save]
  decide

/-- C2 (amended): provided the history loaded at startup holds at most
`MAX_COLOR_RECORDS` records, every state reached by a sequence of appends
and clears keeps the in-memory log at length at most 20, and after any
nonempty such sequence the file written by `save_data` holds at most 20
records. -/
theorem history_bound_invariant :
    ∀ (h0 : List ColorRecord) (f0 : FileState) (ops : List Op),
      h0.length ≤ MAX_COLOR_RECORDS →
      (applyOps (startupState h0 f0) ops).color_history.length ≤ MAX_COLOR_RECORDS
      ∧ (ops ≠ [] →
          fileRecordCount (applyOps (startupState h0 f0) ops).file ≤ MAX_COLOR_RECORDS) := by
  intro h0 f0 ops h
  refine ⟨applyOps_length_le ops _ h, ?_⟩
  intro hne
  rw [applyOps_file_saved ops _ hne, fileRecordCount_save]
  exact applyOps_length_le ops _ h

/-- Witness for C2 (amended) at an empty initial history and a single
append. -/
theorem history_bound_invariant_witness :
    ([] : List ColorRecord).length ≤ MAX_COLOR_RECORDS
    ∧ ([Op.append rec0] ≠ [])
    ∧ (applyOps (startupState [] FileState.missing) [Op.append rec0]).color_history.length
        ≤ MAX_COLOR_RECORDS
    ∧ fileRecordCount (applyOps (startupState [] FileState.missing) [Op.append rec0]).file
        ≤ MAX_COLOR_RECORDS := by
  refine ⟨by decide, by decide, ?_, ?_⟩
  · exact (history_bound_invariant [] FileState.missing [Op.append rec0] (by decide)).1
  · exact (history_bound_invariant [] FileState.missing [Op.append rec0] (by decide)).2
      (by decide)

/-- C4: persisting a history and loading it back reproduces the identical
ordered sequence of samples, field for field: the loaded document is the
array of the records' six-field objects, and its denotation is exactly the
persisted history. -/
theorem persist_then_load_roundtrip :
    ∀ h : List ColorRecord,
      load_data (save_data h)
        = (JVal.jarr (h.map (fun rec => JVal.jobj (encodeRecord rec))), false)
      ∧ decodeHistory (load_data (save_data h)).1 = some h := by
  intro h
  exact ⟨rfl, decodeRecords_encode h⟩

/-- C9: clearing the history persists the empty log, and loading from the
just-persisted file yields the empty log, whatever the prior state was. -/
theorem clear_then_load_empty :
    ∀ s : AppState,
      load_data (clear_history s true).1.file = (JVal.jarr [], false)
      ∧ decodeHistory (load_data (clear_history s true).1.file).1 = some [] := by
  intro s
  exact ⟨rfl, rfl⟩

/-- The parse of a file containing the JSON text of an object with one
boolean field "bad" — valid JSON, but not a list of records. -/
def badDoc : JVal := JVal.jobj [("bad", JVal.jbool true)]

/-- C3 evaluation: a missing file loads as the empty list with no warning,
and undecodable text (JSONDecodeError) loads as the empty list with the
warning; but a file whose content is valid JSON and not a list of records,
such as the object with field "bad", is returned verbatim as the in-memory
history — not replaced by an empty list — and no warning is emitted. -/
theorem load_nonlist_json_kept :
    load_data FileState.missing = (JVal.jarr [], false)
    ∧ load_data FileState.unparseable = (JVal.jarr [], true)
    ∧ load_data (FileState.parsed badDoc) = (badDoc, false)
    ∧ badDoc ≠ JVal.jarr []
    ∧ decodeHistory badDoc = none := by
  refine ⟨rfl, rfl, rfl, ?_, rfl⟩
  intro hcontra
  exact nomatch hcontra

/-- C5 evaluation: when the dialog is confirmed with a nonempty spec that
the hotkey primitive rejects, `change_hotkey` still shows the success
dialog (the `except` branch never runs, because the `ValueError` from
`keyboard.add_hotkey` is raised later inside `KeyListenerThread.run` on the
new thread, where nothing catches it), and the system is left with no
active hotkey registration, so no press of any spec triggers a capture. -/
theorem change_hotkey_invalid_spec_behavior :
    ∀ (valid : String → Bool) (s : AppState) (spec : String),
      spec ≠ "" → valid spec = false →
      change_hotkey valid s true spec
        = { s with hotkey := spec, registeredHotkeys := [],
                   listenerErr := some PyErr.valueError,
                   messages := s.messages ++ [hotkeyChangedMsg spec] }
      ∧ ∀ k, hotkey_triggers (change_hotkey valid s true spec) k = false := by
  intro valid s spec hspec hvalid
  constructor
  · simp [change_hotkey, hvalid, hspec]
  · intro k
    simp [hotkey_triggers, change_hotkey, hvalid, hspec]

/-- Witness for C5 at the malformed spec of the scenario, with the hotkey
primitive rejecting every spec. -/
theorem change_hotkey_invalid_spec_witness :
    ("not a valid spec!!" ≠ "")
    ∧ ((fun _ => false) "not a valid spec!!" = false)
    ∧ change_hotkey (fun _ => false) initialState true "not a valid spec!!"
        = { initialState with
              hotkey := "not a valid spec!!", registeredHotkeys := [],
              listenerErr := some PyErr.valueError,
              messages := initialState.messages
                ++ [hotkeyChangedMsg "not a valid spec!!"] }
    ∧ hotkey_triggers
        (change_hotkey (fun _ => false) initialState true "not a valid spec!!")
        DEFAULT_HOTKEY = false := by
  refine ⟨by decide, rfl, ?_, ?_⟩
  · exact (change_hotkey_invalid_spec_behavior (fun _ => false) initialState
      "not a valid spec!!" (by decide) rfl).1
  · exact (change_hotkey_invalid_spec_behavior (fun _ => false) initialState
      "not a valid spec!!" (by decide) rfl).2 DEFAULT_HOTKEY

/-- Counterexample to C6: at a concrete state and sample, a failing write
during `add_color_record` leaves the exception escaping the handler
(nothing in the source catches it) with no message shown to the operator —
while the in-memory append has already happened. -/
theorem persist_failure_unreported_cex :
    (add_color_record initialState rec0 false).2 = some PyErr.ioError
    ∧ (add_color_record initialState rec0 false).1.messages = initialState.messages
    ∧ (add_color_record initialState rec0 false).1.color_history = [rec0] :=
  ⟨rfl, rfl, rfl⟩

/-- C6 (amended): when the persistence write fails during an append or a
clear, the in-memory mutation is not rolled back, but no operator-visible
report is produced and the exception propagates uncaught out of the
handler. -/
theorem persist_failure_no_rollback :
    ∀ (s : AppState) (rec : ColorRecord),
      (add_color_record s rec false).1.color_history = pushRecord s.color_history rec
      ∧ (add_color_record s rec false).1.messages = s.messages
      ∧ (add_color_record s rec false).2 = some PyErr.ioError
      ∧ (clear_history s false).1.color_history = []
      ∧ (clear_history s false).1.messages = s.messages
      ∧ (clear_history s false).2 = some PyErr.ioError := by
  intro s rec
  exact ⟨rfl, rfl, rfl, rfl, rfl, rfl⟩

theorem toUpper_lowerHexDigit :
    ∀ d, d < 16 → (lowerHexDigit d).toUpper = upperHexDigit d := by decide

theorem pyUpper_qcolorName (r g b : Nat) (hr : r < 256) (hg : g < 256)
    (hb : b < 256) :
    String.mk (pyUpper (qcolorName r g b)) = canonicalHexUpper r g b := by
  have h1 : r / 16 < 16 := by omega
  have h2 : r % 16 < 16 := by omega
  have h3 : g / 16 < 16 := by omega
  have h4 : g % 16 < 16 := by omega
  have h5 : b / 16 < 16 := by omega
  have h6 : b % 16 < 16 := by omega
  unfold pyUpper qcolorName hexByteChars canonicalHexUpper
  refine congrArg String.mk ?_
  simp only [List.map_cons, List.map_append, List.map_nil]
  rw [toUpper_lowerHexDigit _ h1, toUpper_lowerHexDigit _ h2,
    toUpper_lowerHexDigit _ h3, toUpper_lowerHexDigit _ h4,
    toUpper_lowerHexDigit _ h5, toUpper_lowerHexDigit _ h6]
  have hhash : Char.toUpper '#' = '#' := by decide
  rw [hhash]

/-- C7: every sample built by the capture path carries as `hex` the
canonical uppercase #RRGGBB encoding of its own (r, g, b) components, and
each live-preview update shows the canonical uppercase encoding of the
polled pixel's components in the HEX label. -/
theorem hex_field_canonical :
    (∀ (x y : Int) (pix : Nat),
      (color_data x y pix).hex
        = canonicalHexUpper (color_data x y pix).r (color_data x y pix).g
            (color_data x y pix).b)
    ∧ (∀ (s : AppState) (x y : Int) (pix : Nat),
      (update_live_color_display s x y (some pix)).liveHexText
        = "HEX: " ++ canonicalHexUpper (qRed pix) (qGreen pix) (qBlue pix)) := by
  have hr : ∀ pix : Nat, qRed pix < 256 := fun pix => Nat.mod_lt _ (by norm_num)
  have hg : ∀ pix : Nat, qGreen pix < 256 := fun pix => Nat.mod_lt _ (by norm_num)
  have hb : ∀ pix : Nat, qBlue pix < 256 := fun pix => Nat.mod_lt _ (by norm_num)
  constructor
  · intro x y pix
    show String.mk (pyUpper (qcolorName (qRed pix) (qGreen pix) (qBlue pix)))
      = canonicalHexUpper (qRed pix) (qGreen pix) (qBlue pix)
    exact pyUpper_qcolorName _ _ _ (hr pix) (hg pix) (hb pix)
  · intro s x y pix
    show "HEX: " ++ String.mk (pyUpper (qcolorName (qRed pix) (qGreen pix) (qBlue pix)))
      = "HEX: " ++ canonicalHexUpper (qRed pix) (qGreen pix) (qBlue pix)
    rw [pyUpper_qcolorName _ _ _ (hr pix) (hg pix) (hb pix)]

theorem update_live_preserves (s : AppState) (x y : Int) (scr : Option Nat) :
    (update_live_color_display s x y scr).color_history = s.color_history
    ∧ (update_live_color_display s x y scr).file = s.file := by
  cases scr <;> exact ⟨rfl, rfl⟩

/-- C8: any sequence of live-poll ticks, at any positions and pixel values
and with or without an available screen, leaves the history log and the
persisted file exactly as they were: live samples are never appended and
never persisted. -/
theorem live_ticks_pure_display :
    ∀ (s : AppState) (ticks : List (Int × Int × Option Nat)),
      (applyLiveTicks s ticks).color_history = s.color_history
      ∧ (applyLiveTicks s ticks).file = s.file := by
  intro s ticks
  induction ticks generalizing s with
  | nil => exact ⟨rfl, rfl⟩
  | cons e ticks ih =>
    have hstep := update_live_preserves s e.1 e.2.1 e.2.2
    have hrest := ih (update_live_color_display s e.1 e.2.1 e.2.2)
    exact ⟨hrest.1.trans hstep.1, hrest.2.trans hstep.2⟩

/-- C10: copying on selection is total and bounds-safe: the history is
never modified; a row index within bounds copies exactly that entry's hex
to the clipboard (with the confirmation dialog); an out-of-range row leaves
the whole state unchanged — no clipboard write, nothing else. -/
theorem copy_hex_color_bounds_safe :
    ∀ (s : AppState) (row : Int),
      (copy_hex_color s row).color_history = s.color_history
      ∧ (0 ≤ row → row < (s.color_history.length : Int) →
          ∃ rec, s.color_history.get? row.toNat = some rec
            ∧ (copy_hex_color s row).clipboard = some rec.hex
            ∧ (copy_hex_color s row).messages = s.messages ++ [copiedMsg rec.hex])
      ∧ (¬ (0 ≤ row ∧ row < (s.color_history.length : Int)) →
          copy_hex_color s row = s) := by
  intro s row
  refine ⟨?_, ?_, ?_⟩
  · unfold copy_hex_color
    split
    · rfl
    · rfl
  · intro h1 h2
    have hbnd : row.toNat < s.color_history.length := by omega
    refine ⟨s.color_history.get ⟨row.toNat, hbnd⟩, List.get?_eq_get hbnd, ?_, ?_⟩
    · unfold copy_hex_color
      rw [dif_pos ⟨h1, h2⟩]
    · unfold copy_hex_color
      rw [dif_pos ⟨h1, h2⟩]
  · intro hng
    unfold copy_hex_color
    rw [dif_neg hng]

/-- Witness for C10: at a one-entry history, row 0 copies that entry's hex
and row -1 (no item found) changes nothing. -/
theorem copy_hex_color_bounds_safe_witness :
    ((0 : Int) ≤ 0
      ∧ (0 : Int) < ((startupState [rec0] FileState.missing).color_history.length : Int)
      ∧ ∃ rec, (startupState [rec0] FileState.missing).color_history.get? (0 : Int).toNat
            = some rec
          ∧ (copy_hex_color (startupState [rec0] FileState.missing) 0).clipboard
            = some rec.hex
          ∧ (copy_hex_color (startupState [rec0] FileState.missing) 0).messages
            = (startupState [rec0] FileState.missing).messages ++ [copiedMsg rec.hex])
    ∧ ¬ ((0 : Int) ≤ -1
          ∧ (-1 : Int) < ((startupState [rec0] FileState.missing).color_history.length : Int))
    ∧ copy_hex_color (startupState [rec0] FileState.missing) (-1)
        = startupState [rec0] FileState.missing := by
  refine ⟨⟨by decide, by decide, ?_⟩, by decide, ?_⟩
  · exact (copy_hex_color_bounds_safe (startupState [rec0] FileState.missing) 0).2.1
      (by decide) (by decide)
  · exact (copy_hex_color_bounds_safe (startupState [rec0] FileState.missing) (-1)).2.2
      (by decide)
